import Mathlib

/-!
Shallow embedding of the keyvalues3 library's binary codec
(src/keyvalues3/binarywriter.py, src/keyvalues3/binaryreader.py,
src/keyvalues3/keyvalues3.py) and proofs about it.

Machine integers are modelled as Nat/Int with explicit wrap-around,
byte streams as List Nat, Python exceptions as an explicit error type.
IEEE-754 doubles are carried as their 64-bit patterns: struct.pack("<d")
emits the pattern's bytes and unpacking restores them exactly.
-/

namespace KV3

/-- Python exception kinds raised by the code paths modelled here. -/
inductive Err
| invalidMagic        -- BufferError "Not a KV3 buffer"
| unsupportedEncoding -- ValueError "Unsupported Legacy encoding"
| structError         -- struct.error from pack/unpack
| valueError          -- ValueError
| typeError           -- TypeError
| overflowError       -- OverflowError
| indexError          -- IndexError
| attributeError      -- AttributeError
| notImplementedError -- NotImplementedError
| fuelExhausted       -- stands for Python hitting its recursion limit
| notModelled         -- code path outside this embedding (compressed legacy bodies, v1-v3 bodies)
deriving DecidableEq, Repr

/-- The Python values the library's writer/validator dispatch on.
Doubles are represented by their IEEE-754 binary64 bit pattern.
Dict keys are arbitrary values (check_valid must reject non-string keys).
arr models array.array instances (of int64 items); obj models any object
whose type is outside the KV3 variant (e.g. a set). -/
inductive PyVal
| none
| bool (b : Bool)
| int (n : Int)
| float (bits : Nat)
| str (s : String)
| bytes (bs : List Nat)
| list (xs : List PyVal)
| dict (kvs : List (PyVal × PyVal))
| arr (xs : List Int)
| flagged (v : PyVal) (flags : Nat)
| obj (tag : String)

/-- Little-endian byte list (w bytes) of a natural number. -/
def natLE : Nat → Nat → List Nat
| 0, _ => []
| w + 1, n => (n % 256) :: natLE w (n / 256)

/-- Read a little-endian byte list back into a natural number. -/
def bytesToNatLE : List Nat → Nat
| [] => 0
| b :: bs => b + 256 * bytesToNatLE bs

/-- struct.pack("<B", n): one byte, raises struct.error when out of range. -/
def packU8 (n : Nat) : Except Err (List Nat) :=
  if n < 256 then .ok [n] else .error .structError

/-- struct.pack("<I", n): u32 little-endian, raises when out of range. -/
def packU32 (n : Nat) : Except Err (List Nat) :=
  if n < 2 ^ 32 then .ok (natLE 4 n) else .error .structError

/-- struct.pack("<i", i): i32 little-endian two's complement, raises when out of range. -/
def packI32 (i : Int) : Except Err (List Nat) :=
  if -(2 ^ 31) ≤ i ∧ i < 2 ^ 31 then .ok (natLE 4 (i.emod (2 ^ 32)).toNat)
  else .error .structError

/-- struct.pack("<q", i): i64 little-endian two's complement, raises when out of range. -/
def packI64 (i : Int) : Except Err (List Nat) :=
  if -(2 ^ 63) ≤ i ∧ i < 2 ^ 63 then .ok (natLE 8 (i.emod (2 ^ 64)).toNat)
  else .error .structError

/-- Value of one hex digit. -/
def hexVal (c : Char) : Nat :=
  if '0' ≤ c ∧ c ≤ '9' then c.toNat - '0'.toNat
  else if 'a' ≤ c ∧ c ≤ 'f' then c.toNat - 'a'.toNat + 10
  else if 'A' ≤ c ∧ c ≤ 'F' then c.toNat - 'A'.toNat + 10
  else 0

/-- Pairs of hex digits into bytes. -/
def hexPairs : List Char → List Nat
| c1 :: c2 :: rest => (16 * hexVal c1 + hexVal c2) :: hexPairs rest
| _ => []

/-- The 16 bytes of a canonical UUID string (big-endian field order, as written). -/
def uuidBytes (s : String) : List Nat :=
  hexPairs (s.data.filter (fun c => c ≠ '-'))

/-- uuid.UUID(...).bytes_le: time_low, time_mid and time_hi_version are
byte-swapped; the remaining 8 bytes stay in order. -/
def uuidBytesLE (s : String) : List Nat :=
  let b := uuidBytes s
  (b.take 4).reverse ++ ((b.drop 4).take 2).reverse ++ ((b.drop 6).take 2).reverse ++ b.drop 8

/-- UTF-8 encoding of one code point (str.encode("utf-8"), per scalar value). -/
def utf8EncodeCharNat (c : Nat) : List Nat :=
  if c < 0x80 then [c]
  else if c < 0x800 then [0xC0 ||| (c >>> 6), 0x80 ||| (c &&& 0x3F)]
  else if c < 0x10000 then
    [0xE0 ||| (c >>> 12), 0x80 ||| ((c >>> 6) &&& 0x3F), 0x80 ||| (c &&& 0x3F)]
  else
    [0xF0 ||| (c >>> 18), 0x80 ||| ((c >>> 12) &&& 0x3F),
     0x80 ||| ((c >>> 6) &&& 0x3F), 0x80 ||| (c &&& 0x3F)]

/-- str.encode("utf-8"). -/
def utf8Encode (s : String) : List Nat :=
  s.data.flatMap (fun c => utf8EncodeCharNat c.toNat)

/-- IEEE-754 binary64 bit pattern of +0.0. -/
def floatBitsPosZero : Nat := 0
/-- IEEE-754 binary64 bit pattern of -0.0. -/
def floatBitsNegZero : Nat := 0x8000000000000000
/-- IEEE-754 binary64 bit pattern of 1.0. -/
def floatBitsOne : Nat := 0x3FF0000000000000

/-- Python float == 0.0 (the zeros_ones key test): both zero patterns qualify. -/
def pyFloatIsZero (bits : Nat) : Bool :=
  bits = floatBitsPosZero || bits = floatBitsNegZero

/-- Python float == 1.0. -/
def pyFloatIsOne (bits : Nat) : Bool := bits = floatBitsOne

/-! ### Legacy binary writer (BinaryV1UncompressedWriter) -/

/-- pack_type_and_flags: plain type byte when the flag set is empty,
otherwise the type byte with the high bit set followed by the flag byte. -/
def packTypeAndFlags (t flags : Nat) : Except Err (List Nat) :=
  if flags = 0 then .ok [t]
  else
    match packU8 flags with
    | .error e => .error e
    | .ok fb => .ok ([t ||| 0x80] ++ fb)

/-- Sequencing of a fallible step (statements after a Python call that may
raise run only when it did not). -/
def exceptBind {α β : Type} (x : Except Err α) (f : α → Except Err β) : Except Err β :=
  match x with
  | .error e => .error e
  | .ok a => f a

/-- The writer's list loop: each item goes through the step function
(value_and_type_serialize at the surrounding recursion depth). -/
def serializeListF (step : List String → PyVal → Except Err (List String × List Nat)) :
    List String → List PyVal → Except Err (List String × List Nat)
| s, [] => .ok (s, [])
| s, x :: xs =>
  exceptBind (step s x) (fun p1 =>
    exceptBind (serializeListF step p1.1 xs) (fun p2 =>
      .ok (p2.1, p1.2 ++ p2.2)))

/-- The writer's dict loop: every key is interned unconditionally (its
index packed before the append), then the member value is serialized by
the step function. Non-string keys make the later table encode fail;
modelled as an immediate error. -/
def serializeDictF (step : List String → PyVal → Except Err (List String × List Nat)) :
    List String → List (PyVal × PyVal) → Except Err (List String × List Nat)
| s, [] => .ok (s, [])
| s, (k, v) :: rest =>
  match k with
  | .str kt =>
    exceptBind (packI32 s.length) (fun ib =>
      exceptBind (step (s ++ [kt]) v) (fun p1 =>
        exceptBind (serializeDictF step p1.1 rest) (fun p2 =>
          .ok (p2.1, ib ++ p1.2 ++ p2.2))))
  | _ => .error .attributeError

mutual

/-- Nesting depth of a value tree (used only to pick a sufficient fuel). -/
def pyValDepth : PyVal → Nat
| .list xs => 1 + pyListDepth xs
| .dict kvs => 1 + pyDictDepth kvs
| .flagged v _ => 1 + pyValDepth v
| _ => 1

/-- Nesting depth of list items. -/
def pyListDepth : List PyVal → Nat
| [] => 0
| x :: xs => max (pyValDepth x) (pyListDepth xs)

/-- Nesting depth of dict member values. -/
def pyDictDepth : List (PyVal × PyVal) → Nat
| [] => 0
| (_, v) :: rest => max (pyValDepth v) (pyDictDepth rest)

end

/-- value_and_type_serialize's flag unwrap: a flagged_value contributes
its flag set and is serialized on its inner value; anything else gets the
empty flag set. Parameterized by the core serializer. -/
def vatsStep (core : List String → Nat → PyVal → Except Err (List String × List Nat))
    (s : List String) (x : PyVal) : Except Err (List String × List Nat) :=
  match x with
  | .flagged inner f => core s f inner
  | x0 => core s 0 x0

/-- Fusion of value_and_type_serialize (after the flag unwrap) with
value_serialize: emits the type/flag byte(s) followed by the payload for
an already-unwrapped value. A directly nested flagged_value, bytes, or a
foreign object have no entry in the writer's `types` table and raise
TypeError ("Unknown type"). The `arr` case reflects the source's
`case array.array:` class pattern, which never matches an array instance,
so value_serialize returns an empty payload for arrays. Fuel bounds the
recursion depth (one unit per nesting level) and stands for Python's
stack; the wrapper below supplies more fuel than the tree is deep. -/
def serializeV : Nat → List String → Nat → PyVal → Except Err (List String × List Nat)
| 0, _, _, _ => .error .fuelExhausted
| Nat.succ fuel, s, flags, w =>
  match w with
  | .flagged _ _ => .error .typeError
  | .obj _ => .error .typeError
  | .bytes _ => .error .typeError
  | .none => exceptBind (packTypeAndFlags 1 flags) (fun tf => .ok (s, tf))
  | .bool true => exceptBind (packTypeAndFlags 13 flags) (fun tf => .ok (s, tf))
  | .bool false => exceptBind (packTypeAndFlags 14 flags) (fun tf => .ok (s, tf))
  | .int n =>
    if n = 0 then exceptBind (packTypeAndFlags 15 flags) (fun tf => .ok (s, tf))
    else if n = 1 then exceptBind (packTypeAndFlags 16 flags) (fun tf => .ok (s, tf))
    else
      exceptBind (packTypeAndFlags 3 flags) (fun tf =>
        exceptBind (packI64 n) (fun pb => .ok (s, tf ++ pb)))
  | .float bits =>
    if pyFloatIsZero bits then
      exceptBind (packTypeAndFlags 17 flags) (fun tf => .ok (s, tf))
    else if pyFloatIsOne bits then
      exceptBind (packTypeAndFlags 18 flags) (fun tf => .ok (s, tf))
    else
      exceptBind (packTypeAndFlags 5 flags) (fun tf => .ok (s, tf ++ natLE 8 bits))
  | .str t =>
    exceptBind (packTypeAndFlags 6 flags) (fun tf =>
      if t = "" then
        exceptBind (packI32 (-1)) (fun pb => .ok (s, tf ++ pb))
      else
        exceptBind (packI32 s.length) (fun pb => .ok (s ++ [t], tf ++ pb)))
  | .arr _ => exceptBind (packTypeAndFlags 10 flags) (fun tf => .ok (s, tf))
  | .list xs =>
    exceptBind (packTypeAndFlags 8 flags) (fun tf =>
      exceptBind (packI32 xs.length) (fun cb =>
        exceptBind (serializeListF (vatsStep (serializeV fuel)) s xs)
          (fun p => .ok (p.1, tf ++ cb ++ p.2))))
  | .dict kvs =>
    exceptBind (packTypeAndFlags 9 flags) (fun tf =>
      exceptBind (packI32 kvs.length) (fun cb =>
        exceptBind (serializeDictF (vatsStep (serializeV fuel)) s kvs)
          (fun p => .ok (p.1, tf ++ cb ++ p.2))))

/-- value_and_type_serialize: unwrap at most one flagged_value layer, then
serialize type byte(s) and payload. The fuel 1 + pyValDepth exceeds the
tree depth, so the fuel cutoff is never reached on any value. -/
def value_and_type_serialize (s : List String) (v : PyVal) :
    Except Err (List String × List Nat) :=
  match v with
  | .flagged inner f => serializeV (1 + pyValDepth inner) s f inner
  | w => serializeV (1 + pyValDepth w) s 0 w

/-- encode_strings: u32 count, then each interned string UTF-8 encoded and
NUL-terminated. -/
def encode_strings (strings : List String) : Except Err (List Nat) :=
  match packU32 strings.length with
  | .error e => .error e
  | .ok cb => .ok (cb ++ strings.flatMap (fun t => utf8Encode t ++ [0]))

/-- ENCODING_BINARY_UNCOMPRESSED's UUID (src/keyvalues3/keyvalues3.py). -/
def encodingBinaryUncompressedUUID : String := "1b860500-f7d8-40c1-ad82-75a48267e714"

/-- FORMAT_GENERIC's UUID (src/keyvalues3/keyvalues3.py). -/
def formatGenericUUID : String := "7412167c-06e9-4698-aff2-e63eb59037e7"

/-- The legacy magic b"VKV\x03". -/
def magicVKV3 : List Nat := [0x56, 0x4B, 0x56, 0x03]

/-- encode_header: magic, encoding UUID bytes_le, format UUID bytes_le. -/
def encode_header (formatUuid : String) : List Nat :=
  magicVKV3 ++ uuidBytesLE encodingBinaryUncompressedUUID ++ uuidBytesLE formatUuid

/-- BinaryV1UncompressedWriter.__bytes__ for a KV3File with the generic
format: header, string table, root value block, FF FF FF FF terminator.
The body is serialized first (building the intern list), but the table is
emitted before it. -/
def writer_bytes (v : PyVal) : Except Err (List Nat) :=
  match value_and_type_serialize [] v with
  | .error e => .error e
  | .ok (strings, body) =>
    match encode_strings strings with
    | .error e => .error e
    | .ok table =>
      .ok (encode_header formatGenericUUID ++ table ++ body ++ [0xFF, 0xFF, 0xFF, 0xFF])

/-- The intern list (= entries of the emitted string table, in order) that
serializing a document produces. -/
def writerStringTable (v : PyVal) : Except Err (List String) :=
  match value_and_type_serialize [] v with
  | .error e => .error e
  | .ok (strings, _) => .ok strings

/-! ### MemoryBuffer (binaryreader.py) -/

/-- A MemoryBuffer: the underlying bytes plus the cursor. The cursor is an
integer because seek/read adjust it without bounds enforcement. -/
structure RBuf where
  data : List Nat
  pos : Int
deriving DecidableEq, Repr

/-- Effective index of a Python slice endpoint: negative indices count from
the end (clamped at 0), positive ones are clamped at the length. -/
def pySliceIdx (len : Nat) (i : Int) : Nat :=
  if i < 0 then (len + i).toNat else min i.toNat len

/-- Python bytes slicing data[start:stop]. -/
def pySlice (data : List Nat) (start stop : Int) : List Nat :=
  (data.take (pySliceIdx data.length stop)).drop (pySliceIdx data.length start)

/-- MemoryBuffer.read: size -1 returns the rest; otherwise the slice
[offset, offset+size) of the underlying bytes — clamped, never failing —
while the cursor advances by the full requested size. -/
def readBuf (b : RBuf) (n : Int) : List Nat × RBuf :=
  if n = -1 then
    let d := pySlice b.data b.pos b.data.length
    (d, ⟨b.data, b.pos + d.length⟩)
  else
    let d := pySlice b.data b.pos (b.pos + n)
    (d, ⟨b.data, b.pos + n⟩)

/-- read(n) followed by struct.unpack, which raises struct.error when the
returned buffer is shorter than the format needs. -/
def readExact (b : RBuf) (n : Nat) : Except Err (List Nat × RBuf) :=
  let (d, b') := readBuf b n
  if d.length = n then .ok (d, b') else .error .structError

/-- read_uint8. -/
def read_uint8 (b : RBuf) : Except Err (Nat × RBuf) :=
  match readExact b 1 with
  | .error e => .error e
  | .ok (d, b') => .ok (bytesToNatLE d, b')

/-- read_uint32. -/
def read_uint32 (b : RBuf) : Except Err (Nat × RBuf) :=
  match readExact b 4 with
  | .error e => .error e
  | .ok (d, b') => .ok (bytesToNatLE d, b')

/-- read_int32 (two's complement). -/
def read_int32 (b : RBuf) : Except Err (Int × RBuf) :=
  match readExact b 4 with
  | .error e => .error e
  | .ok (d, b') =>
    let n := bytesToNatLE d
    .ok (if n < 2 ^ 31 then (n : Int) else (n : Int) - 2 ^ 32, b')

/-- read_int64 (two's complement). -/
def read_int64 (b : RBuf) : Except Err (Int × RBuf) :=
  match readExact b 8 with
  | .error e => .error e
  | .ok (d, b') =>
    let n := bytesToNatLE d
    .ok (if n < 2 ^ 63 then (n : Int) else (n : Int) - 2 ^ 64, b')

/-- read_uint64. -/
def read_uint64 (b : RBuf) : Except Err (Nat × RBuf) :=
  match readExact b 8 with
  | .error e => .error e
  | .ok (d, b') => .ok (bytesToNatLE d, b')

/-- read_double: unpack("<d") restores the binary64 bit pattern. -/
def read_double (b : RBuf) : Except Err (Nat × RBuf) :=
  match readExact b 8 with
  | .error e => .error e
  | .ok (d, b') => .ok (bytesToNatLE d, b')

/-- Strict UTF-8 decoding of a byte list (bytes.decode("utf8")): rejects
truncated sequences, bad continuation bytes, overlong forms, surrogates
and code points above U+10FFFF. -/
def utf8Decode : List Nat → Option (List Char)
| [] => some []
| b :: rest =>
  if b < 0x80 then
    match utf8Decode rest with
    | some cs => some (Char.ofNat b :: cs)
    | none => none
  else if 0xC2 ≤ b ∧ b ≤ 0xDF then
    match rest with
    | b2 :: rest2 =>
      if 0x80 ≤ b2 ∧ b2 ≤ 0xBF then
        match utf8Decode rest2 with
        | some cs => some (Char.ofNat (((b - 0xC0) <<< 6) + (b2 - 0x80)) :: cs)
        | none => none
      else none
    | _ => none
  else if 0xE0 ≤ b ∧ b ≤ 0xEF then
    match rest with
    | b2 :: b3 :: rest3 =>
      let lo2 := if b = 0xE0 then 0xA0 else 0x80
      let hi2 := if b = 0xED then 0x9F else 0xBF
      if (lo2 ≤ b2 ∧ b2 ≤ hi2) ∧ (0x80 ≤ b3 ∧ b3 ≤ 0xBF) then
        match utf8Decode rest3 with
        | some cs =>
          some (Char.ofNat (((b - 0xE0) <<< 12) + ((b2 - 0x80) <<< 6) + (b3 - 0x80)) :: cs)
        | none => none
      else none
    | _ => none
  else if 0xF0 ≤ b ∧ b ≤ 0xF4 then
    match rest with
    | b2 :: b3 :: b4 :: rest4 =>
      let lo2 := if b = 0xF0 then 0x90 else 0x80
      let hi2 := if b = 0xF4 then 0x8F else 0xBF
      if (lo2 ≤ b2 ∧ b2 ≤ hi2) ∧ (0x80 ≤ b3 ∧ b3 ≤ 0xBF) ∧ (0x80 ≤ b4 ∧ b4 ≤ 0xBF) then
        match utf8Decode rest4 with
        | some cs =>
          some (Char.ofNat (((b - 0xF0) <<< 18) + ((b2 - 0x80) <<< 12) +
                            ((b3 - 0x80) <<< 6) + (b4 - 0x80)) :: cs)
        | none => none
      else none
    | _ => none
  else none

/-- Position of the first NUL byte at or after start (bytes.index). -/
def findNulFrom (data : List Nat) (start : Nat) : Option Nat :=
  match (data.drop start).findIdx? (fun b => b = 0) with
  | some k => some (start + k)
  | none => none

/-- MemoryBuffer.read_nt_string: bytes up to the next NUL from the current
cursor, decoded as strict UTF-8; the cursor lands one past the NUL. A
missing NUL raises ValueError, invalid UTF-8 raises UnicodeDecodeError. -/
def read_nt_string (b : RBuf) : Except Err (String × RBuf) :=
  let start := b.pos.toNat
  match findNulFrom b.data start with
  | none => .error .valueError
  | some e =>
    match utf8Decode (pySlice b.data start e) with
    | none => .error .valueError
    | some cs => .ok (⟨cs⟩, ⟨b.data, (e : Int) + 1⟩)

/-- Python list indexing: negative indices count from the end; anything
outside [-len, len) raises IndexError. -/
def pyListGet (xs : List String) (i : Int) : Option String :=
  if i < 0 then
    if (0 : Int) ≤ (xs.length : Int) + i then xs.get? ((xs.length : Int) + i).toNat else Option.none
  else xs.get? i.toNat

/-- _read_string: an i32 string index from the (aliased) int lane; -1 is
the empty string, anything else indexes the string table with Python list
semantics. -/
def read_string_val (strings : List String) (b : RBuf) : Except Err (String × RBuf) :=
  match read_int32 b with
  | .error e => .error e
  | .ok (strId, b') =>
    if strId = -1 then .ok ("", b')
    else
      match pyListGet strings strId with
      | some s => .ok (s, b')
      | Option.none => .error .indexError

/-- Decimal digits of a positive natural number. -/
def decDigits : Nat → List Char
| 0 => []
| n + 1 =>
  decDigits ((n + 1) / 10) ++ [Char.ofNat (48 + (n + 1) % 10)]
decreasing_by exact Nat.div_lt_self (Nat.succ_pos n) (by omega)

/-- Python str(i) for a loop index. -/
def natToDec (n : Nat) : String :=
  if n = 0 then "0" else ⟨decDigits n⟩

/-- The key of object member i in _read_object:
strings[name_id] if name_id != -1 else str(i). -/
def legacyMemberKey (strings : List String) (nameId : Int) (i : Nat) : Except Err String :=
  if nameId = -1 then .ok (natToDec i)
  else
    match pyListGet strings nameId with
    | some s => .ok s
    | Option.none => .error .indexError

/-- Python dict assignment obj[name] = value: replaces in place when the
key exists, appends otherwise. -/
def pyDictInsert (kvs : List (String × PyVal)) (k : String) (v : PyVal) :
    List (String × PyVal) :=
  if kvs.any (fun p => p.1 = k) then
    kvs.map (fun p => if p.1 = k then (k, v) else p)
  else kvs ++ [(k, v)]

/-- Modelled from the spec: the ids accepted by the BinaryType enum that
binaryreader.py imports but that is missing under src (only ids 1-18 appear
in the writer's BinaryTypes). Spec section 6 lists the wire-stable kinds
1..25; BinaryType(x) raises ValueError outside that range. -/
def isBinaryTypeId (k : Nat) : Bool := 1 ≤ k && k ≤ 25

/-- _read_type_legacy: a type byte; when the high bit is set the kind is
the low 7 bits and one flag byte follows, mapped to a Specifier by testing
bits 1, 2, 8, 16, 32 in that order (UNSPECIFIED = 8 when none matches).
BinaryType(kind) validation happens on return. -/
def read_type_legacy (b : RBuf) : Except Err ((Nat × Nat) × RBuf) :=
  match read_uint8 b with
  | .error e => .error e
  | .ok (t, b1) =>
    if t &&& 0x80 ≠ 0 then
      let k := t &&& 0x7F
      match read_uint8 b1 with
      | .error e => .error e
      | .ok (f, b2) =>
        let spec :=
          if f &&& 1 ≠ 0 then 1
          else if f &&& 2 ≠ 0 then 2
          else if f &&& 8 ≠ 0 then 3
          else if f &&& 16 ≠ 0 then 4
          else if f &&& 32 ≠ 0 then 5
          else 8
        if isBinaryTypeId k then .ok ((k, spec), b2) else .error .valueError
    else
      if isBinaryTypeId t then .ok ((t, 8), b1) else .error .valueError

/-- _read_array_typed_helper: reads the element kind/specifier, then the
source's stray early return hands back the empty bytes object before any
of the element-materialization code below it can run. -/
def typedArrayHelper (b : RBuf) : Except Err (PyVal × RBuf) :=
  match read_type_legacy b with
  | .error e => .error e
  | .ok (_, b1) => .ok (.bytes [], b1)

/-- Convert an IEEE-754 binary32 bit pattern to the binary64 pattern of the
same value (unpack("<f") produces a Python double). -/
def f32BitsToF64Bits (b : Nat) : Nat :=
  let s := b >>> 31
  let e := (b >>> 23) &&& 0xFF
  let m := b &&& 0x7FFFFF
  if e = 255 then (s <<< 63) ||| (2047 <<< 52) ||| (m <<< 29)
  else if e = 0 then
    if m = 0 then s <<< 63
    else
      let p := Nat.log2 m
      (s <<< 63) ||| ((874 + p) <<< 52) ||| ((m - 2 ^ p) <<< (52 - p))
  else (s <<< 63) ||| ((e + 896) <<< 52) ||| (m <<< 29)

/-- _read_array's loop: count elements, each read by the step function
(a full value read at the surrounding recursion depth). -/
def readListItems (step : RBuf → Except Err (PyVal × RBuf)) :
    Nat → RBuf → List PyVal → Except Err (PyVal × RBuf)
| 0, b, acc => .ok (.list acc, b)
| cnt + 1, b, acc =>
  match step b with
  | .error e => .error e
  | .ok (v, b') => readListItems step cnt b' (acc ++ [v])

/-- _read_object's loop: per member an i32 key index, the key resolved via
legacyMemberKey, then a full value read (the step function); Python dict
insertion semantics. -/
def readMembers (strings : List String) (step : RBuf → Except Err (PyVal × RBuf)) :
    Nat → Nat → RBuf → List (String × PyVal) → Except Err (PyVal × RBuf)
| 0, _, b, acc => .ok (.dict (acc.map (fun p => (PyVal.str p.1, p.2))), b)
| cnt + 1, i, b, acc =>
  match read_int32 b with
  | .error e => .error e
  | .ok (nameId, b1) =>
    match legacyMemberKey strings nameId i with
    | .error e => .error e
    | .ok name =>
      match step b1 with
      | .error e => .error e
      | .ok (v, b2) => readMembers strings step cnt (i + 1) b2 (pyDictInsert acc name v)

/-- _read_value_legacy: read a type byte, dispatch on the kind through the
_kv3_readers table (specialized to the legacy layout in which every lane
aliases the single document buffer), then wrap in a flagged_value when the
specifier is strictly between NONE (0) and ENTITY_NAME (6) — using
kv3.Flag(specifier.value), i.e. the raw specifier number becomes the flag
bit set. Kinds 20/21 hit the legacy context's short_buffer, which is
Python None (AttributeError); kinds 22/23 both call read_uint8 as in the
source. Fuel bounds the recursion depth and stands for Python's stack. -/
def readValue (strings : List String) : Nat → RBuf → Except Err (PyVal × RBuf)
| 0, _ => .error .fuelExhausted
| Nat.succ fuel, b =>
  match read_type_legacy b with
  | .error e => .error e
  | .ok ((k, spec), b1) =>
    let res : Except Err (PyVal × RBuf) :=
      match k with
      | 1 => .ok (.none, b1)
      | 2 =>
        match read_uint8 b1 with
        | .error e => .error e
        | .ok (n, b') => .ok (.bool (n = 1), b')
      | 3 =>
        match read_int64 b1 with
        | .error e => .error e
        | .ok (n, b') => .ok (.int n, b')
      | 4 =>
        match read_uint64 b1 with
        | .error e => .error e
        | .ok (n, b') => .ok (.int n, b')
      | 5 =>
        match read_double b1 with
        | .error e => .error e
        | .ok (bits, b') => .ok (.float bits, b')
      | 6 =>
        match read_string_val strings b1 with
        | .error e => .error e
        | .ok (s, b') => .ok (.str s, b')
      | 7 =>
        -- legacy blob: inline i32 length, then a clamped read of that many bytes
        match read_int32 b1 with
        | .error e => .error e
        | .ok (len, b') =>
          let (d, b'') := readBuf b' len
          .ok (.bytes d, b'')
      | 8 =>
        match read_int32 b1 with
        | .error e => .error e
        | .ok (cnt, b') => readListItems (readValue strings fuel) cnt.toNat b' []
      | 9 =>
        match read_uint32 b1 with
        | .error e => .error e
        | .ok (cnt, b') => readMembers strings (readValue strings fuel) cnt 0 b' []
      | 10 =>
        match read_uint32 b1 with
        | .error e => .error e
        | .ok (_, b') => typedArrayHelper b'
      | 11 =>
        match read_int32 b1 with
        | .error e => .error e
        | .ok (n, b') => .ok (.int n, b')
      | 12 =>
        match read_uint32 b1 with
        | .error e => .error e
        | .ok (n, b') => .ok (.int n, b')
      | 13 => .ok (.bool true, b1)
      | 14 => .ok (.bool false, b1)
      | 15 => .ok (.int 0, b1)
      | 16 => .ok (.int 1, b1)
      | 17 => .ok (.float floatBitsPosZero, b1)
      | 18 => .ok (.float floatBitsOne, b1)
      | 19 =>
        match readExact b1 4 with
        | .error e => .error e
        | .ok (d, b') => .ok (.float (f32BitsToF64Bits (bytesToNatLE d)), b')
      | 20 => .error .attributeError
      | 21 => .error .attributeError
      | 22 =>
        match read_uint8 b1 with
        | .error e => .error e
        | .ok (n, b') => .ok (.int n, b')
      | 23 =>
        match read_uint8 b1 with
        | .error e => .error e
        | .ok (n, b') => .ok (.int n, b')
      | 24 =>
        match read_uint8 b1 with
        | .error e => .error e
        | .ok (_, b') => typedArrayHelper b'
      | 25 =>
        -- the buffer-group swap is a no-op in legacy (both groups alias)
        match read_uint8 b1 with
        | .error e => .error e
        | .ok (_, b') => typedArrayHelper b'
      | _ => .error .valueError
    match res with
    | .error e => .error e
    | .ok (v, b2) =>
      if 0 < spec ∧ spec < 6 then .ok (.flagged v spec, b2) else .ok (v, b2)

/-- The loop reading the string table: string_count NUL-terminated strings. -/
def readStringsTable : Nat → RBuf → Except Err (List String × RBuf)
| 0, b => .ok ([], b)
| n + 1, b =>
  match read_nt_string b with
  | .error e => .error e
  | .ok (s, b') =>
    match readStringsTable n b' with
    | .error e => .error e
    | .ok (rest, b'') => .ok (s :: rest, b'')

/-- read_legacy: a 16-byte encoding UUID selects the body transform (only
the uncompressed body is modelled; the block-compressed and LZ4 paths call
external decompressors), a 16-byte format UUID is read and ignored, then
from a fresh buffer over the remaining bytes: u32 string count, the string
table, and the recursive root-value read. Fuel is proportional to the body
size; running out corresponds to Python's recursion limit. -/
def read_legacy (b : RBuf) : Except Err PyVal :=
  let (encBytes, b1) := readBuf b 16
  if encBytes = uuidBytesLE encodingBinaryUncompressedUUID then
    let (_fmtBytes, b2) := readBuf b1 16
    let (rest, _) := readBuf b2 (-1)
    let buf : RBuf := ⟨rest, 0⟩
    match read_uint32 buf with
    | .error e => .error e
    | .ok (cnt, buf1) =>
      match readStringsTable cnt buf1 with
      | .error e => .error e
      | .ok (strings, buf2) =>
        match readValue strings (rest.length * 4 + 16) buf2 with
        | .error e => .error e
        | .ok (root, _) => .ok root
  else if encBytes = [0x46, 0x17, 0x91, 0x95, 0xBC, 0x95, 0x6C, 0x4F, 0xA7, 0x0B,
                      0x05, 0xBC, 0xA1, 0xB7, 0xDF, 0xD2] then
    .error .notModelled
  else if encBytes = [0x8A, 0x34, 0x47, 0x68, 0xA1, 0x63, 0x5C, 0x4F, 0xA1, 0x97,
                      0x53, 0x80, 0x6F, 0xD9, 0xB1, 0x19] then
    .error .notModelled
  else .error .unsupportedEncoding

/-- The readers the dispatcher can hand off to. -/
inductive ReaderKind
| legacy
| v1
| v2
| v3
deriving DecidableEq, Repr

/-- The four magics actually defined on BinaryMagics in
src/keyvalues3/binarywriter.py (VKV3 and KV3_01..KV3_03). -/
def binaryMagicsValues : List (List Nat) :=
  [[0x56, 0x4B, 0x56, 0x03],
   [0x01, 0x33, 0x56, 0x4B],
   [0x02, 0x33, 0x56, 0x4B],
   [0x03, 0x33, 0x56, 0x4B]]

/-- BinaryMagics.is_defined. -/
def binaryMagicsIsDefined (m : List Nat) : Bool :=
  binaryMagicsValues.contains m

/-- The dispatch of read_valve_keyvalue3: reject anything is_defined does
not know (BufferError), then compare against the enum members in order.
The source's later branches mention BinaryMagics.KV3_04 / KV3_05, members
the enum does not define, so they can never be selected; a defined magic
always matches one of the first four comparisons. -/
def selectReader (m : List Nat) : Except Err ReaderKind :=
  if ¬ binaryMagicsIsDefined m then .error .invalidMagic
  else if m = [0x56, 0x4B, 0x56, 0x03] then .ok .legacy
  else if m = [0x01, 0x33, 0x56, 0x4B] then .ok .v1
  else if m = [0x02, 0x33, 0x56, 0x4B] then .ok .v2
  else if m = [0x03, 0x33, 0x56, 0x4B] then .ok .v3
  else .error .attributeError

/-- read_valve_keyvalue3 over a full document buffer: four magic bytes,
dispatch, then the per-version reader (only the legacy body is modelled;
the v1-v3 bodies are not needed by any claim here). -/
def read_valve_keyvalue3 (b : RBuf) : Except Err PyVal :=
  let (m, b1) := readBuf b 4
  match selectReader m with
  | .error e => .error e
  | .ok .legacy => read_legacy b1
  | .ok _ => .error .notModelled

/-! ### check_valid (src/keyvalues3/keyvalues3.py) -/

/-- First character of a Python identifier (ASCII fragment). -/
def isIdentStart (c : Char) : Bool := c = '_' || c.isAlpha

/-- Later character of a Python identifier (ASCII fragment). -/
def isIdentCont (c : Char) : Bool := c = '_' || c.isAlpha || c.isDigit

/-- str.isidentifier, restricted to ASCII: nonempty, first character a
letter or underscore, the rest letters, digits or underscores. -/
def isIdentifier (s : String) : Bool :=
  match s.data with
  | [] => false
  | c :: cs => isIdentStart c && cs.all isIdentCont

mutual

/-- check_valid: flagged values are checked on their inner value; ints must
lie in [-2^63, 2^64-1]; lists and dicts are walked (the source's
`nested_value is value` identity test can never fire on a finite tree);
dict keys must be strings and Python identifiers; bytes and arrays pass;
anything outside the variant raises TypeError. -/
def check_valid : PyVal → Except Err Unit
| .flagged v _ => check_valid v
| .none => .ok ()
| .bool _ => .ok ()
| .float _ => .ok ()
| .str _ => .ok ()
| .int n =>
  if n > 2 ^ 64 - 1 then .error .overflowError
  else if n < -(2 ^ 63) then .error .overflowError
  else .ok ()
| .list xs => checkItems xs
| .dict kvs => checkEntries kvs
| .bytes _ => .ok ()
| .arr _ => .ok ()
| .obj _ => .error .typeError

/-- The list loop of check_valid. -/
def checkItems : List PyVal → Except Err Unit
| [] => .ok ()
| x :: xs =>
  match check_valid x with
  | .error e => .error e
  | .ok _ => checkItems xs

/-- The dict loop of check_valid: non-string key, then non-identifier key,
then the nested value. -/
def checkEntries : List (PyVal × PyVal) → Except Err Unit
| [] => .ok ()
| (k, v) :: rest =>
  match k with
  | .str t =>
    if isIdentifier t then
      match check_valid v with
      | .error e => .error e
      | .ok _ => checkEntries rest
    else .error .valueError
  | _ => .error .valueError

end

mutual

/-- A tree contains a validation offender. With identRule the string keys
must additionally be identifiers (the condition check_valid enforces);
without it only the conditions the claim lists remain (out-of-range int,
non-string key, type outside the variant). -/
def hasInvalid (identRule : Bool) : PyVal → Bool
| .flagged v _ => hasInvalid identRule v
| .int n => decide (n > 2 ^ 64 - 1) || decide (n < -(2 ^ 63))
| .list xs => anyInvalid identRule xs
| .dict kvs => anyInvalidEntry identRule kvs
| .obj _ => true
| _ => false

/-- Any offender in a list. -/
def anyInvalid (identRule : Bool) : List PyVal → Bool
| [] => false
| x :: xs => hasInvalid identRule x || anyInvalid identRule xs

/-- Any offender among dict entries. -/
def anyInvalidEntry (identRule : Bool) : List (PyVal × PyVal) → Bool
| [] => false
| (k, v) :: rest =>
  (match k with
   | .str t => identRule && !isIdentifier t
   | _ => true) || hasInvalid identRule v || anyInvalidEntry identRule rest

end

/-! ### Occurrence lists for the string table -/

/-- The keys-and-strings a list of items contributes to the intern list,
one g-image per item. -/
def occListF (g : PyVal → List String) : List PyVal → List String
| [] => []
| x :: xs => g x ++ occListF g xs

/-- The contribution of dict entries: the key (always interned, even when
empty; nothing for a non-string key, whose serialization fails), then the
member value's occurrences. -/
def occDictF (g : PyVal → List String) : List (PyVal × PyVal) → List String
| [] => []
| (k, v) :: rest =>
  (match k with
   | .str t => [t]
   | _ => []) ++ g v ++ occDictF g rest

/-- The occurrence contribution of one item after the flag unwrap. -/
def occStep (g : PyVal → List String) (x : PyVal) : List String :=
  match x with
  | .flagged inner _ => g inner
  | x0 => g x0

/-- The strings the serializer appends to the intern list while writing an
unwrapped value, in order: each non-empty string value at each of its
occurrences, and every dict key. Fuel mirrors serializeV's recursion. -/
def occW : Nat → PyVal → List String
| 0, _ => []
| Nat.succ fuel, w =>
  match w with
  | .str t => if t = "" then [] else [t]
  | .list xs => occListF (occStep (occW fuel)) xs
  | .dict kvs => occDictF (occStep (occW fuel)) kvs
  | _ => []

/-- Occurrence list of a whole document (flag wrapper unwrapped first, the
fuel chosen exactly as in value_and_type_serialize). -/
def occAll (v : PyVal) : List String :=
  match v with
  | .flagged inner _ => occW (1 + pyValDepth inner) inner
  | w => occW (1 + pyValDepth w) w

/-! ### Helper lemmas -/

theorem ok_pair_left {α β : Type} {s1 s2 : α} {b1 b2 : β}
    (h : (Except.ok (s1, b1) : Except Err (α × β)) = .ok (s2, b2)) : s1 = s2 := by
  injection h with h1
  exact congrArg Prod.fst h1

theorem exceptBind_ok {α β : Type} {x : Except Err α} {f : α → Except Err β} {r : β}
    (h : exceptBind x f = .ok r) : ∃ a, x = .ok a ∧ f a = .ok r := by
  cases x with
  | error e => exact absurd h (by simp [exceptBind])
  | ok a => exact ⟨a, rfl, h⟩

theorem serializeListF_strings
    (step : List String → PyVal → Except Err (List String × List Nat))
    (g : PyVal → List String)
    (hstep : ∀ s0 x p, step s0 x = .ok p → p.1 = s0 ++ g x) :
    ∀ (xs : List PyVal) (s : List String) p,
      serializeListF step s xs = .ok p → p.1 = s ++ occListF g xs := by
  intro xs
  induction xs with
  | nil =>
    intro s p h
    simp only [serializeListF] at h
    have h1 := Except.ok.inj h
    rw [← h1]
    simp [occListF]
  | cons x rest ih =>
    intro s p h
    simp only [serializeListF] at h
    obtain ⟨p1, hp1, h⟩ := exceptBind_ok h
    obtain ⟨p2, hp2, h⟩ := exceptBind_ok h
    have hfst : p.1 = p2.1 := by rw [← Except.ok.inj h]
    rw [hfst, ih p1.1 p2 hp2, hstep s x p1 hp1]
    simp [occListF, List.append_assoc]

theorem serializeDictF_strings
    (step : List String → PyVal → Except Err (List String × List Nat))
    (g : PyVal → List String)
    (hstep : ∀ s0 x p, step s0 x = .ok p → p.1 = s0 ++ g x) :
    ∀ (kvs : List (PyVal × PyVal)) (s : List String) p,
      serializeDictF step s kvs = .ok p → p.1 = s ++ occDictF g kvs := by
  intro kvs
  induction kvs with
  | nil =>
    intro s p h
    simp only [serializeDictF] at h
    have h1 := Except.ok.inj h
    rw [← h1]
    simp [occDictF]
  | cons kv rest ih =>
    obtain ⟨k, v⟩ := kv
    intro s p h
    cases k with
    | str kt =>
      simp only [serializeDictF] at h
      obtain ⟨ib, hib, h⟩ := exceptBind_ok h
      obtain ⟨p1, hp1, h⟩ := exceptBind_ok h
      obtain ⟨p2, hp2, h⟩ := exceptBind_ok h
      have hfst : p.1 = p2.1 := by rw [← Except.ok.inj h]
      rw [hfst, ih p1.1 p2 hp2, hstep (s ++ [kt]) v p1 hp1]
      simp [occDictF, List.append_assoc]
    | none => exact absurd h (by simp [serializeDictF])
    | bool bb => exact absurd h (by simp [serializeDictF])
    | int n => exact absurd h (by simp [serializeDictF])
    | float bits => exact absurd h (by simp [serializeDictF])
    | bytes bs => exact absurd h (by simp [serializeDictF])
    | list xs => exact absurd h (by simp [serializeDictF])
    | dict kvs2 => exact absurd h (by simp [serializeDictF])
    | arr ys => exact absurd h (by simp [serializeDictF])
    | flagged v2 f2 => exact absurd h (by simp [serializeDictF])
    | obj t2 => exact absurd h (by simp [serializeDictF])

theorem serializeV_strings :
    ∀ (fuel : Nat) (s : List String) (flags : Nat) (w : PyVal) p,
      serializeV fuel s flags w = .ok p → p.1 = s ++ occW fuel w := by
  intro fuel
  induction fuel with
  | zero => intro s flags w p h; exact Except.noConfusion h
  | succ fuel ih =>
    have hstep : ∀ s0 x p0, vatsStep (serializeV fuel) s0 x = .ok p0 →
        p0.1 = s0 ++ occStep (occW fuel) x := by
      intro s0 x p0 h0
      cases x <;> exact ih s0 _ _ p0 h0
    intro s flags w p h
    cases w with
    | flagged v f => exact Except.noConfusion h
    | obj t => exact Except.noConfusion h
    | bytes bs => exact Except.noConfusion h
    | none =>
      simp only [serializeV] at h
      obtain ⟨tf, _, h⟩ := exceptBind_ok h
      rw [← Except.ok.inj h]
      simp [occW]
    | bool bb =>
      cases bb <;>
        (simp only [serializeV] at h
         obtain ⟨tf, _, h⟩ := exceptBind_ok h
         rw [← Except.ok.inj h]
         simp [occW])
    | int n =>
      simp only [serializeV] at h
      by_cases h0 : n = 0
      · rw [if_pos h0] at h
        obtain ⟨tf, _, h⟩ := exceptBind_ok h
        rw [← Except.ok.inj h]
        simp [occW]
      · rw [if_neg h0] at h
        by_cases h1 : n = 1
        · rw [if_pos h1] at h
          obtain ⟨tf, _, h⟩ := exceptBind_ok h
          rw [← Except.ok.inj h]
          simp [occW]
        · rw [if_neg h1] at h
          obtain ⟨tf, _, h⟩ := exceptBind_ok h
          obtain ⟨pb, _, h⟩ := exceptBind_ok h
          rw [← Except.ok.inj h]
          simp [occW]
    | float bits =>
      simp only [serializeV] at h
      by_cases hz : pyFloatIsZero bits = true
      · rw [if_pos hz] at h
        obtain ⟨tf, _, h⟩ := exceptBind_ok h
        rw [← Except.ok.inj h]
        simp [occW]
      · rw [if_neg hz] at h
        by_cases ho : pyFloatIsOne bits = true
        · rw [if_pos ho] at h
          obtain ⟨tf, _, h⟩ := exceptBind_ok h
          rw [← Except.ok.inj h]
          simp [occW]
        · rw [if_neg ho] at h
          obtain ⟨tf, _, h⟩ := exceptBind_ok h
          rw [← Except.ok.inj h]
          simp [occW]
    | str t =>
      simp only [serializeV] at h
      obtain ⟨tf, _, h⟩ := exceptBind_ok h
      by_cases ht : t = ""
      · rw [if_pos ht] at h
        obtain ⟨pb, _, h⟩ := exceptBind_ok h
        rw [← Except.ok.inj h]
        simp [occW, ht]
      · rw [if_neg ht] at h
        obtain ⟨pb, _, h⟩ := exceptBind_ok h
        rw [← Except.ok.inj h]
        simp [occW, ht]
    | arr xs =>
      simp only [serializeV] at h
      obtain ⟨tf, _, h⟩ := exceptBind_ok h
      rw [← Except.ok.inj h]
      simp [occW]
    | list xs =>
      simp only [serializeV] at h
      obtain ⟨tf, _, h⟩ := exceptBind_ok h
      obtain ⟨cb, _, h⟩ := exceptBind_ok h
      obtain ⟨p1, hp1, h⟩ := exceptBind_ok h
      have hfst : p.1 = p1.1 := by rw [← Except.ok.inj h]
      rw [hfst]
      simp only [occW]
      exact serializeListF_strings _ _ hstep xs s p1 hp1
    | dict kvs =>
      simp only [serializeV] at h
      obtain ⟨tf, _, h⟩ := exceptBind_ok h
      obtain ⟨cb, _, h⟩ := exceptBind_ok h
      obtain ⟨p1, hp1, h⟩ := exceptBind_ok h
      have hfst : p.1 = p1.1 := by rw [← Except.ok.inj h]
      rw [hfst]
      simp only [occW]
      exact serializeDictF_strings _ _ hstep kvs s p1 hp1

theorem decDigits_ne_nil (n : Nat) (h : n ≠ 0) : decDigits n ≠ [] := by
  cases n with
  | zero => exact absurd rfl h
  | succ m => simp [decDigits]

theorem natToDec_ne_empty (n : Nat) : natToDec n ≠ "" := by
  unfold natToDec
  split
  · decide
  · intro hc
    have hd := congrArg String.data hc
    simp only at hd
    exact decDigits_ne_nil n (by assumption) hd

/-! ### Claim theorems -/

/-- C2: serializing KV3File(value=None, format=generic) with the legacy
uncompressed writer yields exactly: magic 56 4B 56 03, the encoding UUID
little-endian bytes 00 05 86 1B D8 F7 C1 40 AD 82 75 A4 82 67 E7 14, the
generic format UUID bytes 7C 16 12 74 E9 06 98 46 AF F2 E6 3E B5 90 37 E7,
u32 string count 0, the Null type byte 01, and terminator FF FF FF FF. -/
theorem c2_null_document_exact_bytes :
    writer_bytes PyVal.none =
      .ok [0x56, 0x4B, 0x56, 0x03,
           0x00, 0x05, 0x86, 0x1B, 0xD8, 0xF7, 0xC1, 0x40,
           0xAD, 0x82, 0x75, 0xA4, 0x82, 0x67, 0xE7, 0x14,
           0x7C, 0x16, 0x12, 0x74, 0xE9, 0x06, 0x98, 0x46,
           0xAF, 0xF2, 0xE6, 0x3E, 0xB5, 0x90, 0x37, 0xE7,
           0x00, 0x00, 0x00, 0x00,
           0x01,
           0xFF, 0xFF, 0xFF, 0xFF] := rfl

/-- C3: the dispatcher maps the legacy and V1-V3 magics to their readers,
but because BinaryMagics defines no KV3_04/KV3_05 members, the V4 and V5
prefixes (04 33 56 4B and 05 33 56 4B) fail is_defined and raise the
invalid-magic BufferError instead of reaching read_v4/read_v5. -/
theorem c3_magic_dispatch :
    selectReader [0x56, 0x4B, 0x56, 0x03] = .ok .legacy ∧
    selectReader [0x01, 0x33, 0x56, 0x4B] = .ok .v1 ∧
    selectReader [0x02, 0x33, 0x56, 0x4B] = .ok .v2 ∧
    selectReader [0x03, 0x33, 0x56, 0x4B] = .ok .v3 ∧
    selectReader [0x04, 0x33, 0x56, 0x4B] = .error .invalidMagic ∧
    selectReader [0x05, 0x33, 0x56, 0x4B] = .error .invalidMagic :=
  ⟨rfl, rfl, rfl, rfl, rfl, rfl⟩

/-- C4: a legacy document whose root is a TypedArray (kind 10) with count 2
and element kind Int64Zero decodes to the empty bytes object: the reader
consumes the count and the element kind and then the stray early return in
the typed-array helper discards the element materialization entirely,
instead of producing the two-element constant vector the claim states. -/
theorem c4_typed_array_early_return :
    read_valve_keyvalue3
      ⟨encode_header formatGenericUUID ++ [0x00, 0x00, 0x00, 0x00] ++
        [0x0A, 0x02, 0x00, 0x00, 0x00, 0x0F] ++ [0xFF, 0xFF, 0xFF, 0xFF], 0⟩ =
      .ok (.bytes []) := rfl

/-- C1: decode of encode fails on flagged values. The writer encodes
flagged_value(None, Flag.panorama) (flag bit 8) as type byte 0x81 plus
flag byte 0x08; the reader maps bit 8 to Specifier.PANORAMA (enum value 3)
and rebuilds the flag set as kv3.Flag(3) = resource|resource_name, so the
decoded tree differs from the input. -/
theorem c1_flagged_roundtrip_fails :
    writer_bytes (.flagged .none 8) =
      .ok (encode_header formatGenericUUID ++ [0x00, 0x00, 0x00, 0x00] ++
        [0x81, 0x08] ++ [0xFF, 0xFF, 0xFF, 0xFF]) ∧
    read_valve_keyvalue3
      ⟨encode_header formatGenericUUID ++ [0x00, 0x00, 0x00, 0x00] ++
        [0x81, 0x08] ++ [0xFF, 0xFF, 0xFF, 0xFF], 0⟩ =
      .ok (.flagged .none 3) ∧
    PyVal.flagged .none 3 ≠ PyVal.flagged .none 8 :=
  ⟨rfl, rfl, by simp⟩

/-- C9: for any intern state, an unflagged integer equal to 0 or 1 is
written as the single constant kind byte 15 or 16 with no payload, and a
double equal to 0.0 (either IEEE zero pattern) or 1.0 as byte 17 or 18
with no payload. -/
theorem c9_compact_constants (s : List String) :
    value_and_type_serialize s (.int 0) = .ok (s, [15]) ∧
    value_and_type_serialize s (.int 1) = .ok (s, [16]) ∧
    (∀ bits, pyFloatIsZero bits = true →
      value_and_type_serialize s (.float bits) = .ok (s, [17])) ∧
    (∀ bits, pyFloatIsOne bits = true →
      value_and_type_serialize s (.float bits) = .ok (s, [18])) := by
  refine ⟨rfl, rfl, ?_, ?_⟩
  · intro bits h
    simp only [pyFloatIsZero, floatBitsPosZero, floatBitsNegZero, Bool.or_eq_true,
      decide_eq_true_eq] at h
    rcases h with h | h <;> subst h <;> rfl
  · intro bits h
    simp only [pyFloatIsOne, floatBitsOne, decide_eq_true_eq] at h
    subst h; rfl

/-- Witness for C9 at negative zero. -/
theorem c9_compact_constants_witness :
    pyFloatIsZero floatBitsNegZero = true ∧
    value_and_type_serialize [] (.float floatBitsNegZero) = .ok ([], [17]) :=
  ⟨rfl, (c9_compact_constants []).2.2.1 floatBitsNegZero rfl⟩

/-- C10: an object member whose key index is -1 decodes without error and
its key is the decimal string of the member's position (never empty);
end-to-end, a legacy object with one member of key index -1 and value
null decodes to the dict with key "0". -/
theorem c10_member_key_from_ordinal :
    (∀ (strings : List String) (i : Nat),
      legacyMemberKey strings (-1) i = .ok (natToDec i) ∧ natToDec i ≠ "") ∧
    read_valve_keyvalue3
      ⟨encode_header formatGenericUUID ++ [0x00, 0x00, 0x00, 0x00] ++
        [0x09, 0x01, 0x00, 0x00, 0x00, 0xFF, 0xFF, 0xFF, 0xFF, 0x01] ++
        [0xFF, 0xFF, 0xFF, 0xFF], 0⟩ =
      .ok (.dict [(.str "0", .none)]) :=
  ⟨fun _strings i => ⟨rfl, natToDec_ne_empty i⟩, rfl⟩

/-- C7 counterexample: with the two-entry table ["a", "b"], the string
index -2 (bytes FE FF FF FF) does not fail: Python list indexing wraps it
around to entry 0 and the decode succeeds with "a". -/
theorem c7_counterexample_negative_index_wraps :
    read_string_val ["a", "b"] ⟨[0xFE, 0xFF, 0xFF, 0xFF], 0⟩ =
      .ok ("a", ⟨[0xFE, 0xFF, 0xFF, 0xFF], 4⟩) := rfl

/-- C8 counterexample: a 5-byte request against a 2-byte buffer returns
the 2 remaining bytes without any failure, not 5 bytes. -/
theorem c8_counterexample_short_read :
    readBuf ⟨[7, 9], 0⟩ 5 = ([7, 9], ⟨[7, 9], 5⟩) ∧ ([7, 9] : List Nat).length ≠ 5 :=
  ⟨rfl, by decide⟩

/-- C6 counterexample: the dict with the single key "a b" contains only
string keys, in-range ints, no out-of-variant value and no
self-reference, so the claim says check_valid returns normally; the code
raises ValueError because "a b" is not an identifier. -/
theorem c6_counterexample_nonidentifier_key :
    check_valid (.dict [(.str "a b", .int 5)]) = .error .valueError ∧
    hasInvalid false (.dict [(.str "a b", .int 5)]) = false :=
  ⟨rfl, rfl⟩

/-- C5 counterexample: the document ["a", "a"] has exactly one distinct
non-empty string, but the writer's emitted table carries two entries: the
intern list records occurrences, not distinct strings. -/
theorem c5_counterexample_duplicates_not_merged :
    writerStringTable (.list [.str "a", .str "a"]) = .ok ["a", "a"] ∧
    (["a", "a"] : List String) ≠ ["a"] :=
  ⟨rfl, by decide⟩

/-- C7 amended: decoding a string reference with index i against the
per-document table: -1 yields the empty string without a lookup;
0 ≤ i < len yields entry i; i ≥ len fails; i < -len (other than -1, which
only overlaps when the table is empty) fails; and -len ≤ i ≤ -2 does not
fail — Python list indexing wraps it to entry len + i. -/
theorem c7_string_index_semantics (strings : List String) (i : Int) (b b' : RBuf)
    (h : read_int32 b = .ok (i, b')) :
    (i = -1 → read_string_val strings b = .ok ("", b')) ∧
    (0 ≤ i → i < (strings.length : Int) →
      ∃ s, strings.get? i.toNat = some s ∧ read_string_val strings b = .ok (s, b')) ∧
    ((strings.length : Int) ≤ i → read_string_val strings b = .error .indexError) ∧
    (i ≠ -1 → i < -(strings.length : Int) →
      read_string_val strings b = .error .indexError) ∧
    (-(strings.length : Int) ≤ i → i ≤ -2 →
      ∃ s, strings.get? ((strings.length : Int) + i).toNat = some s ∧
        read_string_val strings b = .ok (s, b')) := by
  have hrs : read_string_val strings b =
      (if i = -1 then .ok ("", b')
       else match pyListGet strings i with
            | some s => .ok (s, b')
            | Option.none => .error .indexError) := by
    simp only [read_string_val, h]
  refine ⟨?_, ?_, ?_, ?_, ?_⟩
  · intro hi
    rw [hrs, if_pos hi]
  · intro h0 hlt
    have hne : i ≠ -1 := by omega
    have hnneg : ¬ i < 0 := by omega
    have hlen : i.toNat < strings.length := by omega
    rw [hrs, if_neg hne]
    refine ⟨strings.get ⟨i.toNat, hlen⟩, List.get?_eq_get hlen, ?_⟩
    simp only [pyListGet, if_neg hnneg, List.get?_eq_get hlen]
  · intro hge
    have hne : i ≠ -1 := by omega
    have hnneg : ¬ i < 0 := by omega
    have hlen : strings.length ≤ i.toNat := by omega
    rw [hrs, if_neg hne]
    simp only [pyListGet, if_neg hnneg, List.get?_eq_none.mpr hlen]
  · intro hne hlt
    have hneg : i < 0 := by omega
    have hcond : ¬ (0 : Int) ≤ (strings.length : Int) + i := by omega
    rw [hrs, if_neg hne]
    simp only [pyListGet, if_pos hneg, if_neg hcond]
  · intro hge hle
    have hne : i ≠ -1 := by omega
    have hneg : i < 0 := by omega
    have hcond : (0 : Int) ≤ (strings.length : Int) + i := by omega
    have hlen : ((strings.length : Int) + i).toNat < strings.length := by omega
    rw [hrs, if_neg hne]
    refine ⟨strings.get ⟨((strings.length : Int) + i).toNat, hlen⟩, List.get?_eq_get hlen, ?_⟩
    simp only [pyListGet, if_pos hneg, if_pos hcond, List.get?_eq_get hlen]

/-- Witness for C7 amended: table ["a", "b"], index 3 (out of range) fails;
index -2 wraps to "a". -/
theorem c7_string_index_semantics_witness :
    read_string_val ["a", "b"] ⟨[3, 0, 0, 0], 0⟩ = .error .indexError ∧
    ∃ s, (["a", "b"] : List String).get? (((2 : Nat) : Int) + (-2 : Int)).toNat = some s ∧
      read_string_val ["a", "b"] ⟨[0xFE, 0xFF, 0xFF, 0xFF], 0⟩ =
        .ok (s, ⟨[0xFE, 0xFF, 0xFF, 0xFF], 4⟩) :=
  ⟨(c7_string_index_semantics ["a", "b"] 3 ⟨[3, 0, 0, 0], 0⟩ ⟨[3, 0, 0, 0], 4⟩ rfl).2.2.1
      (by decide),
   (c7_string_index_semantics ["a", "b"] (-2) ⟨[0xFE, 0xFF, 0xFF, 0xFF], 0⟩
      ⟨[0xFE, 0xFF, 0xFF, 0xFF], 4⟩ (by rfl)).2.2.2.2 (by decide) (by decide)⟩

/-- C5 amended: the emitted string table is the occurrence list — one
entry per occurrence of each non-empty string value and one entry per
object key (keys always, even empty or duplicate ones), in serialization
order; an empty string value is not entered and serializes as index -1
(bytes FF FF FF FF after the kind byte 6). -/
theorem c5_table_is_occurrence_list :
    (∀ (v : PyVal) (s : List String) (p : List String × List Nat),
      value_and_type_serialize s v = .ok p → p.1 = s ++ occAll v) ∧
    (∀ s0 : List String,
      value_and_type_serialize s0 (.str "") = .ok (s0, [6, 0xFF, 0xFF, 0xFF, 0xFF])) := by
  constructor
  · intro v s p h
    cases v with
    | flagged inner f => exact serializeV_strings _ _ f _ _ h
    | none => exact serializeV_strings _ _ 0 _ _ h
    | bool bb => exact serializeV_strings _ _ 0 _ _ h
    | int n => exact serializeV_strings _ _ 0 _ _ h
    | float bits => exact serializeV_strings _ _ 0 _ _ h
    | str t => exact serializeV_strings _ _ 0 _ _ h
    | bytes bs => exact serializeV_strings _ _ 0 _ _ h
    | list xs => exact serializeV_strings _ _ 0 _ _ h
    | dict kvs => exact serializeV_strings _ _ 0 _ _ h
    | arr ys => exact serializeV_strings _ _ 0 _ _ h
    | obj tag => exact serializeV_strings _ _ 0 _ _ h
  · intro s0
    rfl

/-- Witness for C5 amended at the duplicate-string document. -/
theorem c5_table_is_occurrence_list_witness :
    value_and_type_serialize [] (.list [.str "a", .str "a"]) =
      .ok (["a", "a"], [8, 2, 0, 0, 0, 6, 0, 0, 0, 0, 6, 1, 0, 0, 0]) ∧
    (["a", "a"] : List String) =
      [] ++ occAll (.list [.str "a", .str "a"]) := by
  have h : value_and_type_serialize [] (.list [.str "a", .str "a"]) =
      .ok (["a", "a"], [8, 2, 0, 0, 0, 6, 0, 0, 0, 0, 6, 1, 0, 0, 0]) := by rfl
  exact ⟨h, c5_table_is_occurrence_list.1 _ _ _ h⟩

/-- C6 amended: check_valid fails exactly when the tree contains an
out-of-range integer, a non-string object key, a string key that is not a
Python identifier, or a value whose type is outside the KV3 variant
(direct self-reference cannot exist in a finite tree, so it never fires
here). -/
theorem c6_check_valid_iff (v : PyVal) :
    check_valid v = .ok () ↔ hasInvalid true v = false := by
  refine check_valid.induct
    (fun v => check_valid v = .ok () ↔ hasInvalid true v = false)
    (fun kvs => checkEntries kvs = .ok () ↔ anyInvalidEntry true kvs = false)
    (fun xs => checkItems xs = .ok () ↔ anyInvalid true xs = false)
    ?_ ?_ ?_ ?_ ?_ ?_ ?_ ?_ ?_ ?_ ?_ ?_ ?_ ?_ ?_ ?_ ?_ ?_ ?_ ?_ ?_ v
  all_goals intros
  all_goals simp_all [check_valid, checkItems, checkEntries, hasInvalid, anyInvalid,
    anyInvalidEntry]
  all_goals rw [if_neg (by omega), if_neg (by omega)]

/-- C8 amended: for a cursor inside the buffer and a nonnegative request
n, read never fails: it returns exactly min n (size - pos) bytes (fewer
than n when fewer remain) and advances the cursor by the full n. -/
theorem c8_read_returns_clamped_slice (data : List Nat) (pos n : Nat)
    (hpos : pos ≤ data.length) :
    ((readBuf ⟨data, (pos : Int)⟩ (n : Int)).1).length = min n (data.length - pos) ∧
    (readBuf ⟨data, (pos : Int)⟩ (n : Int)).2 = ⟨data, (pos : Int) + (n : Int)⟩ := by
  have hne : (n : Int) ≠ -1 := by omega
  constructor
  · simp only [readBuf, if_neg hne, pySlice, pySliceIdx]
    have h1 : ¬ ((pos : Int) + (n : Int) < 0) := by omega
    have h2 : ¬ ((pos : Int) < 0) := by omega
    rw [if_neg h1, if_neg h2]
    simp only [List.length_drop, List.length_take]
    omega
  · simp only [readBuf, if_neg hne]

/-- Witness for C8 amended at the 2-byte buffer and a 5-byte request. -/
theorem c8_read_returns_clamped_slice_witness :
    ((readBuf ⟨[7, 9], 0⟩ 5).1).length = min 5 2 ∧
    (readBuf ⟨[7, 9], 0⟩ 5).2 = ⟨[7, 9], 5⟩ :=
  c8_read_returns_clamped_slice [7, 9] 0 5 (by decide)

end KV3

